import Mathlib

/-!
# omniorb-simple-demo client: console reader, pending queue, dispatch loop

A shallow embedding of `src/omniorb-simple-demo-client/main.cpp`.

* The lambda run by `std::thread io` (lines 138-175) becomes a step function over the
  key codes returned by `getKey()`; every statement with an observable effect
  (`std::cerr <<`, `symbols.emplace_back`, taking and releasing `mutex`, `cv.notify_one`)
  is recorded, in program order, as an `IoAction`.
* The polling loop of `main` (lines 178-197) becomes `dispatchIteration` over the pair of
  deques `symbols` / `toProcess`, with `sendEchoString` (lines 43-52) and the remote
  `echoString` stub taken as a parameter.
* `getObjectReference` (lines 216-277) is embedded over an ORB whose three remote
  operations are parameters returning `Except CorbaExn _`.

`int` values are `Int`; the only narrowing conversion, `static_cast<char>(tmp)`, is
modelled on the low eight bits. `getKey()` is the source of key codes: its own effects
(switching the terminal mode, the console echo of the `_WIN32` branch) are not recorded.
The two threads are interleaved at the grain of one append to `symbols` and one iteration
of the dispatch loop.
-/

namespace OmniorbSimpleDemo

/-! ## The console-reading thread -/

/-- One observable statement executed by the lambda of `std::thread io`. -/
inductive IoAction where
  | cerr (msg : String)
  | emplace_back (s : String)
  | lock
  | notify_one
  | unlock
  deriving DecidableEq, Repr

/-- Control point of the reader thread at a call of `getKey()`:
`NORMAL` is the call on line 147 (outer `while (true)`), `RECOVERING count` is the call
on line 161 inside `for (int count{0}; ; ++count)` with the loop variable equal to
`count`. -/
inductive IoState where
  | NORMAL
  | RECOVERING (count : Int)
  deriving DecidableEq, Repr

/-- The conversion `static_cast<char>(tmp)` followed by `str = <char>`: a one-character
string holding the low eight bits of `tmp`. -/
def static_cast_char (tmp : Int) : String :=
  String.singleton (Char.ofNat (tmp % 256).toNat)

/-- The text written on line 157 and again on line 164. -/
def promptMsg : String := "\nInput is ignored. Press ENTER to continue..."

/-- The fragment appended on line 158. -/
def unprintableFragment : String := "\nERROR: Unprintable charachter detected.\n"

/-- The fragment appended on line 169. -/
def resumedFragment : String := "Session resumed.\n"

/-- The fragment appended on line 141. -/
def bannerFragment : String := "\nNew session initialized.\n"

/-- Lines 172-174: `std::lock_guard lock{mutex}; cv.notify_one();` and the end of the
loop body, where the guard is destroyed. -/
def lockNotify : List IoAction := [.lock, .notify_one, .unlock]

/-- Everything the reader thread does between one return of `getKey()` (with value `tmp`)
and the next call of `getKey()`. -/
def ioStep : IoState → Int → IoState × List IoAction
  | .NORMAL, tmp =>
    if (32 ≤ tmp ∧ tmp ≤ 126) ∨ tmp = 10 ∨ tmp = 13 then
      let str := if tmp = 13 then "\n" else static_cast_char tmp
      (.NORMAL, [.emplace_back str] ++ lockNotify)
    else
      (.RECOVERING 0,
        [.cerr "\nERROR: Unprintable charachter detected. ", .cerr promptMsg,
         .emplace_back unprintableFragment])
  | .RECOVERING count, tmp =>
    if tmp = 10 ∨ tmp = 13 then
      (.NORMAL, [.cerr "Session resumed.\n", .emplace_back resumedFragment] ++ lockNotify)
    else if count ≥ 9 then
      (.RECOVERING (-1 + 1), [.cerr promptMsg])
    else
      (.RECOVERING (count + 1), [])

/-- The reader thread fed the successive results of `getKey()`. -/
def ioRun : IoState → List Int → IoState × List IoAction
  | st, [] => (st, [])
  | st, tmp :: rest =>
    ((ioRun (ioStep st tmp).1 rest).1, (ioStep st tmp).2 ++ (ioRun (ioStep st tmp).1 rest).2)

/-- The whole lambda: lines 140-141, then the `while (true)` loop. -/
def ioThread (keys : List Int) : IoState × List IoAction :=
  ((ioRun .NORMAL keys).1,
    [.cerr "New session initialized.\n", .emplace_back bannerFragment] ++ (ioRun .NORMAL keys).2)

/-- The strings appended to `symbols`, in program order. -/
def enqueued : List IoAction → List String
  | [] => []
  | .emplace_back s :: rest => s :: enqueued rest
  | _ :: rest => enqueued rest

/-- The strings written to `std::cerr`, in program order. -/
def cerrOutput : List IoAction → List String
  | [] => []
  | .cerr s :: rest => s :: cerrOutput rest
  | _ :: rest => cerrOutput rest

/-- The strings appended to `symbols` at a moment when this thread does not hold `mutex`;
`held` says whether the thread holds it before the first action. -/
def unguardedAppends : Bool → List IoAction → List String
  | _, [] => []
  | _, .lock :: rest => unguardedAppends true rest
  | _, .unlock :: rest => unguardedAppends false rest
  | held, .emplace_back s :: rest =>
    if held then unguardedAppends held rest else s :: unguardedAppends held rest
  | held, _ :: rest => unguardedAppends held rest

/-! ## CORBA exceptions and the echo reference -/

/-- The exceptions the ORB can raise, as far as the handlers of this program tell them
apart. `NO_RESOURCES`, `TRANSIENT` and `SystemException _` are the classes derived from
`CORBA::SystemException`; `ORB_InvalidName` is `CORBA::ORB::InvalidName`, `NotFound` is
`CosNaming::NamingContext::NotFound`, `UserException _` is any other `CORBA::Exception`. -/
inductive CorbaExn where
  | NO_RESOURCES
  | TRANSIENT
  | SystemException (name : String)
  | ORB_InvalidName
  | NotFound
  | UserException (name : String)
  deriving DecidableEq, Repr

/-- Whether `catch (CORBA::SystemException&)` matches. -/
def CorbaExn.isSystemException : CorbaExn → Bool
  | .NO_RESOURCES => true
  | .TRANSIENT => true
  | .SystemException _ => true
  | _ => false

/-- The result of `ex._name()`. -/
def CorbaExn._name : CorbaExn → String
  | .NO_RESOURCES => "NO_RESOURCES"
  | .TRANSIENT => "TRANSIENT"
  | .SystemException name => name
  | .ORB_InvalidName => "InvalidName"
  | .NotFound => "NotFound"
  | .UserException name => name

/-- An `Echo_ptr`: nil, or a stub whose `echoString` either returns a string or raises.
The first argument of `echoString` is the number of remote invocations made before this
one, so that a stub may fail on some calls and succeed on others. -/
inductive Echo_ptr where
  | nil
  | ref (echoString : Nat → String → Except CorbaExn String)

/-! ## The dispatch loop of `main` -/

/-- What the main thread is observed to do. `batch` marks a non-empty `toProcess`
reaching the `for` loop on line 189; `sendEchoString` marks a call on line 191 with its
argument; `echoString` marks the remote invocation on line 51; `cerr` is a write to
`std::cerr`. -/
inductive MainEvent where
  | cerr (msg : String)
  | batch (b : List String)
  | sendEchoString (str : String)
  | echoString (src : String)
  deriving DecidableEq, Repr

/-- The remote invocations among the events. -/
def remoteCalls : List MainEvent → List String
  | [] => []
  | .echoString s :: rest => s :: remoteCalls rest
  | _ :: rest => remoteCalls rest

/-- The arguments of the calls of `sendEchoString` among the events. -/
def sent : List MainEvent → List String
  | [] => []
  | .sendEchoString s :: rest => s :: sent rest
  | _ :: rest => sent rest

/-- The batches handed to the `for` loop among the events. -/
def batches : List MainEvent → List (List String)
  | [] => []
  | .batch b :: rest => b :: batches rest
  | _ :: rest => batches rest

/-- The texts written to `std::cerr` among the events. -/
def cerrLines : List MainEvent → List String
  | [] => []
  | .cerr s :: rest => s :: cerrLines rest
  | _ :: rest => cerrLines rest

/-- The text written on line 46. -/
def nilMsg : String := "Echo: The object reference is nil!\n"

/-- Lines 43-52. `n` is the number of remote invocations made so far. Returns the events
of this call and the exception leaving the function, if any: the body has no handler, so
whatever `e->echoString(src)` raises leaves `sendEchoString`. -/
def sendEchoString (e : Echo_ptr) (str : String) (n : Nat) : List MainEvent × Option CorbaExn :=
  match e with
  | .nil => ([.sendEchoString str, .cerr nilMsg], none)
  | .ref echoString =>
    match echoString n str with
    | .ok _ => ([.sendEchoString str, .echoString str], none)
    | .error ex => ([.sendEchoString str, .echoString str], some ex)

/-- Lines 189-192, `for (auto&& symbol : toProcess) sendEchoString(echoRef, symbol);`:
an exception leaving one call leaves the loop. -/
def forEachSymbol (e : Echo_ptr) : List String → Nat → List MainEvent × Option CorbaExn
  | [], _ => ([], none)
  | symbol :: rest, n =>
    match sendEchoString e symbol n with
    | (evs, some ex) => (evs, some ex)
    | (evs, none) =>
      (evs ++ (forEachSymbol e rest (n + (remoteCalls evs).length)).1,
        (forEachSymbol e rest (n + (remoteCalls evs).length)).2)

/-- The two deques of `main`, what the main thread has done so far, and the exception
that has left the `while (true)` loop of line 179, if one has. -/
structure MainState where
  symbols : List String
  toProcess : List String
  trace : List MainEvent
  thrown : Option CorbaExn
  deriving DecidableEq, Repr

/-- One iteration of the loop of lines 179-197. `cv.wait_for` with a zero timeout
returns the value of its predicate `!symbols.empty()`; the sleep of line 196 has no
effect on the state. -/
def dispatchIteration (e : Echo_ptr) (st : MainState) : MainState :=
  let swapped := !st.symbols.isEmpty
  let symbols := if swapped then st.toProcess else st.symbols
  let toProcess := if swapped then st.symbols else st.toProcess
  if toProcess.isEmpty then
    { st with symbols := symbols, toProcess := toProcess }
  else
    match forEachSymbol e toProcess (remoteCalls st.trace).length with
    | (evs, none) =>
      { symbols := symbols, toProcess := [],
        trace := st.trace ++ .batch toProcess :: evs, thrown := none }
    | (evs, some ex) =>
      { symbols := symbols, toProcess := toProcess,
        trace := st.trace ++ .batch toProcess :: evs, thrown := some ex }

/-- An atomic step of the two-thread system: the reader appends one string to `symbols`,
or the main thread runs one iteration of its loop. -/
inductive Step where
  | enqueue (s : String)
  | dispatch
  deriving DecidableEq, Repr

/-- One step. Once an exception has left the `while` loop there is no further
iteration; what becomes of the process after that is not modelled. -/
def step (e : Echo_ptr) (st : MainState) : Step → MainState
  | .enqueue s => { st with symbols := st.symbols ++ [s] }
  | .dispatch =>
    match st.thrown with
    | some _ => st
    | none => dispatchIteration e st

/-- The state on line 178: both deques empty. -/
def initial : MainState := { symbols := [], toProcess := [], trace := [], thrown := none }

/-- A schedule of steps run from a state. -/
def run (e : Echo_ptr) (st : MainState) (steps : List Step) : MainState :=
  steps.foldl (step e) st

/-- The strings appended by the enqueue steps of a schedule, in order. -/
def enqueuesOf : List Step → List String
  | [] => []
  | .enqueue s :: rest => s :: enqueuesOf rest
  | .dispatch :: rest => enqueuesOf rest

/-- The loop invariant of the two-thread system: while the loop is running `toProcess`
is empty at the loop head and everything handed to the `for` loop has been sent; the
batches handed over so far followed by `symbols` are the strings appended so far. -/
def Handoff (st : MainState) (appended : List String) : Prop :=
  (st.thrown = none → st.toProcess = []) ∧
    (st.thrown = none → sent st.trace = (batches st.trace).flatten) ∧
    (batches st.trace).flatten ++ st.symbols = appended

/-! ## `getObjectReference` -/

/-- A `CORBA::Object_ptr`: `none` is `CORBA::Object::_nil()`. -/
abbrev Object_ptr := Option Nat

/-- A non-nil `CosNaming::NamingContext_var`, with its remote `resolve`. -/
structure NamingContext where
  resolve : List (String × String) → Except CorbaExn Object_ptr

/-- The ORB operations `getObjectReference` calls in its first `try` block:
`orb->resolve_initial_references` and `CosNaming::NamingContext::_narrow`, whose result
`none` is a nil context. -/
structure ORB where
  resolve_initial_references : String → Except CorbaExn Object_ptr
  narrow : Object_ptr → Except CorbaExn (Option NamingContext)

/-- The `CosNaming::Name` built on lines 246-252. -/
def echoName : List (String × String) := [("test", "my_context"), ("Echo", "Object")]

/-- The text of lines 234-236. -/
def noResourcesMsg : String :=
  "Caught NO_RESOURCES exception. You must configure omniORB " ++ "with the location\n" ++
    "of the naming service.\n"

/-- The text of line 241. -/
def invalidNameMsg : String := "Service required is invalid [does not exist].\n"

/-- The text of line 264. -/
def notFoundMsg : String := "Context not found.\n"

/-- The text of lines 267-270. -/
def transientMsg : String :=
  "Caught system exception TRANSIENT -- unable to contact the " ++ "naming service.\n" ++
    "Make sure the naming server is running and that omniORB is " ++ "configured correctly.\n"

/-- Lines 216-277. Returns what was written to `std::cerr` and either the returned
reference or the exception that leaves the function. The first `try` block has handlers
for `CORBA::NO_RESOURCES` and `CORBA::ORB::InvalidName` only; the second has handlers for
`NotFound`, `CORBA::TRANSIENT` and `CORBA::SystemException`. -/
def getObjectReference (orb : ORB) : String × Except CorbaExn Object_ptr :=
  match orb.resolve_initial_references "SimpleDemo" >>= orb.narrow with
  | .error .NO_RESOURCES => (noResourcesMsg, .ok none)
  | .error .ORB_InvalidName => (invalidNameMsg, .ok none)
  | .error ex => ("", .error ex)
  | .ok none => ("Failed to narrow the root naming context.\n", .ok none)
  | .ok (some rootContext) =>
    match rootContext.resolve echoName with
    | .ok obj => ("", .ok obj)
    | .error .NotFound => (notFoundMsg, .ok none)
    | .error .TRANSIENT => (transientMsg, .ok none)
    | .error ex =>
      if ex.isSystemException then
        ("Caught a CORBA::" ++ ex._name ++ " while using the naming service.\n", .ok none)
      else
        ("", .error ex)

/-- The operation of `getObjectReference` at which a failure is raised. -/
inductive LookupStep where
  | resolve_initial_references
  | narrow
  | resolve
  deriving DecidableEq, Repr

/-- The operation `s` raises `ex`, every operation before it having returned normally
(and the narrowed root context being non-nil when `resolve` is reached). -/
def raisesAt (orb : ORB) : LookupStep → CorbaExn → Prop
  | .resolve_initial_references, ex => orb.resolve_initial_references "SimpleDemo" = .error ex
  | .narrow, ex =>
    ∃ obj, orb.resolve_initial_references "SimpleDemo" = .ok obj ∧ orb.narrow obj = .error ex
  | .resolve, ex =>
    ∃ obj rootContext, orb.resolve_initial_references "SimpleDemo" = .ok obj ∧
      orb.narrow obj = .ok (some rootContext) ∧ rootContext.resolve echoName = .error ex

/-- The pairs of operation and failure kind for which the enclosing `try` block of
`getObjectReference` has a handler, among the four kinds NO_RESOURCES, InvalidName,
TRANSIENT and NotFound. -/
def handledAt : LookupStep → CorbaExn → Bool
  | .resolve_initial_references, .NO_RESOURCES => true
  | .resolve_initial_references, .ORB_InvalidName => true
  | .narrow, .NO_RESOURCES => true
  | .narrow, .ORB_InvalidName => true
  | .resolve, .NotFound => true
  | .resolve, .TRANSIENT => true
  | .resolve, .NO_RESOURCES => true
  | _, _ => false

/-- An ORB whose `resolve_initial_references` raises `TRANSIENT`. -/
def unreachableOrb : ORB :=
  { resolve_initial_references := fun _ => .error .TRANSIENT, narrow := fun _ => .ok none }

/-- An ORB whose naming service is reached, with `resolve` raising `ex`. -/
def orbResolveRaising (ex : CorbaExn) : ORB :=
  { resolve_initial_references := fun _ => .ok (some 0),
    narrow := fun _ => .ok (some { resolve := fun _ => .error ex }) }

/-- An echo reference whose every remote call raises `TRANSIENT`. -/
def unreachableEcho : Echo_ptr := .ref (fun _ _ => .error .TRANSIENT)

/-- An echo reference whose every remote call returns its argument. -/
def workingEcho : Echo_ptr := .ref (fun _ s => .ok s)

/-- An echo reference whose second remote call raises `TRANSIENT` and whose other calls
return their argument. -/
def flakyEcho : Nat → String → Except CorbaExn String :=
  fun n s => if n = 1 then .error .TRANSIENT else .ok s

/-- The main-thread state at a loop head with the given pending strings and nothing done
so far. -/
def pending (symbols : List String) : MainState :=
  { symbols := symbols, toProcess := [], trace := [], thrown := none }

/-- A schedule in which the reader thread, fed the given keys, makes all its appends
before the main thread runs one iteration. -/
def readThenDispatch (keys : List Int) : List Step :=
  (enqueued (ioThread keys).2).map Step.enqueue ++ [.dispatch]

/-! ## Lemmas on the reader thread -/

theorem enqueued_append (a b : List IoAction) :
    enqueued (a ++ b) = enqueued a ++ enqueued b := by
  induction a with
  | nil => rfl
  | cons x xs ih => cases x <;> simp [enqueued, ih]

theorem cerrOutput_append (a b : List IoAction) :
    cerrOutput (a ++ b) = cerrOutput a ++ cerrOutput b := by
  induction a with
  | nil => rfl
  | cons x xs ih => cases x <;> simp [cerrOutput, ih]

theorem ioRun_cons (st : IoState) (tmp : Int) (rest : List Int) :
    ioRun st (tmp :: rest) =
      ((ioRun (ioStep st tmp).1 rest).1,
        (ioStep st tmp).2 ++ (ioRun (ioStep st tmp).1 rest).2) := rfl

theorem ioRun_append (st : IoState) (a b : List Int) :
    ioRun st (a ++ b) =
      ((ioRun (ioRun st a).1 b).1, (ioRun st a).2 ++ (ioRun (ioRun st a).1 b).2) := by
  induction a generalizing st with
  | nil => simp [ioRun]
  | cons k ks ih => simp [ioRun, ih, List.append_assoc]

/-- Inside the recovery loop, keys other than line-feed and carriage-return leave the
thread in the recovery loop and append nothing. -/
theorem ioRun_recovering_ignored (ks : List Int) (count : Int)
    (h : ∀ k ∈ ks, k ≠ 10 ∧ k ≠ 13) :
    (∃ c, (ioRun (.RECOVERING count) ks).1 = .RECOVERING c) ∧
      enqueued (ioRun (.RECOVERING count) ks).2 = [] := by
  induction ks generalizing count with
  | nil => exact ⟨⟨count, rfl⟩, rfl⟩
  | cons k ks ih =>
    have hk := h k (List.mem_cons_self _ _)
    have hks : ∀ k ∈ ks, k ≠ 10 ∧ k ≠ 13 := fun x hx => h x (List.mem_cons_of_mem _ hx)
    have hnt : ¬ (k = 10 ∨ k = 13) := by omega
    by_cases hc : count ≥ 9
    · have hs : ioStep (.RECOVERING count) k = (.RECOVERING (-1 + 1), [.cerr promptMsg]) := by
        simp [ioStep, hnt, hc]
      simp only [ioRun, hs, enqueued_append]
      exact ⟨(ih _ hks).1, by simp [enqueued, (ih _ hks).2]⟩
    · have hs : ioStep (.RECOVERING count) k = (.RECOVERING (count + 1), []) := by
        simp [ioStep, hnt, hc]
      simp only [ioRun, hs, enqueued_append]
      exact ⟨(ih _ hks).1, by simp [enqueued, (ih _ hks).2]⟩

/-- Fewer than ten ignored keys are counted silently. -/
theorem ioRun_recovering_count (ks : List Int) (count : Int)
    (h : ∀ k ∈ ks, k ≠ 10 ∧ k ≠ 13) (h0 : 0 ≤ count) (hle : count + ks.length ≤ 9) :
    ioRun (.RECOVERING count) ks = (.RECOVERING (count + ks.length), []) := by
  induction ks generalizing count with
  | nil => simp [ioRun]
  | cons k ks ih =>
    have hk := h k (List.mem_cons_self _ _)
    have hks : ∀ k ∈ ks, k ≠ 10 ∧ k ≠ 13 := fun x hx => h x (List.mem_cons_of_mem _ hx)
    have hnt : ¬ (k = 10 ∨ k = 13) := by omega
    simp only [List.length_cons, Nat.cast_add, Nat.cast_one] at hle
    have hc : ¬ count ≥ 9 := by omega
    have hs : ioStep (.RECOVERING count) k = (.RECOVERING (count + 1), []) := by
      simp [ioStep, hnt, hc]
    have := ih (count + 1) hks (by omega) (by omega)
    simp only [ioRun, hs, this, List.length_cons, Nat.cast_add, Nat.cast_one, List.nil_append]
    congr 2
    omega

/-- At every call of `getKey()` the reader thread does not hold `mutex`, and every string
it has appended was appended without holding it. -/
theorem ioRun_unguarded (st : IoState) (keys : List Int) :
    unguardedAppends false (ioRun st keys).2 = enqueued (ioRun st keys).2 := by
  induction keys generalizing st with
  | nil => rfl
  | cons k ks ih =>
    simp only [ioRun]
    cases st with
    | NORMAL =>
      by_cases ha : (32 ≤ k ∧ k ≤ 126) ∨ k = 10 ∨ k = 13 <;>
        simp [ioStep, ha, unguardedAppends, enqueued, lockNotify, ih]
    | RECOVERING count =>
      by_cases ht : k = 10 ∨ k = 13
      · simp [ioStep, ht, unguardedAppends, enqueued, lockNotify, ih]
      · by_cases hc : count ≥ 9 <;>
          simp [ioStep, ht, hc, unguardedAppends, enqueued, lockNotify, ih]

/-! ## Lemmas on the dispatch loop -/

theorem remoteCalls_append (a b : List MainEvent) :
    remoteCalls (a ++ b) = remoteCalls a ++ remoteCalls b := by
  induction a with
  | nil => rfl
  | cons x xs ih => cases x <;> simp [remoteCalls, ih]

theorem sent_append (a b : List MainEvent) : sent (a ++ b) = sent a ++ sent b := by
  induction a with
  | nil => rfl
  | cons x xs ih => cases x <;> simp [sent, ih]

theorem batches_append (a b : List MainEvent) :
    batches (a ++ b) = batches a ++ batches b := by
  induction a with
  | nil => rfl
  | cons x xs ih => cases x <;> simp [batches, ih]

theorem cerrLines_append (a b : List MainEvent) :
    cerrLines (a ++ b) = cerrLines a ++ cerrLines b := by
  induction a with
  | nil => rfl
  | cons x xs ih => cases x <;> simp [cerrLines, ih]

theorem enqueuesOf_append (a b : List Step) :
    enqueuesOf (a ++ b) = enqueuesOf a ++ enqueuesOf b := by
  induction a with
  | nil => rfl
  | cons x xs ih => cases x <;> simp [enqueuesOf, ih]

/-- What one call of `sendEchoString` records, whatever the reference. -/
theorem sendEchoString_events (e : Echo_ptr) (str : String) (n : Nat) :
    sent (sendEchoString e str n).1 = [str] ∧ batches (sendEchoString e str n).1 = [] := by
  cases e with
  | nil => exact ⟨rfl, rfl⟩
  | ref echoString =>
    simp only [sendEchoString]
    cases echoString n str <;> exact ⟨rfl, rfl⟩

/-- The `for` loop records no batch marker, sends a prefix of the batch, and sends the
whole batch when no exception leaves it. -/
theorem forEachSymbol_events (e : Echo_ptr) (b : List String) (n : Nat) :
    batches (forEachSymbol e b n).1 = [] ∧
      ((forEachSymbol e b n).2 = none → sent (forEachSymbol e b n).1 = b) := by
  induction b generalizing n with
  | nil => exact ⟨rfl, fun _ => rfl⟩
  | cons s rest ih =>
    have hs := sendEchoString_events e s n
    rcases hres : sendEchoString e s n with ⟨evs, _ | ex⟩
    · rw [hres] at hs
      have ihr := ih (n + (remoteCalls evs).length)
      simp only [forEachSymbol, hres, batches_append, sent_append, hs.1, hs.2, ihr.1]
      exact ⟨rfl, fun h => by rw [ihr.2 h]; rfl⟩
    · rw [hres] at hs
      simp only [forEachSymbol, hres, hs.2]
      exact ⟨trivial, fun h => by cases h⟩

/-- With a nil reference the `for` loop makes no remote call, writes the nil message once
per string and is never left by an exception. -/
theorem forEachSymbol_nil (b : List String) (n : Nat) :
    (forEachSymbol .nil b n).2 = none ∧ remoteCalls (forEachSymbol .nil b n).1 = [] ∧
      cerrLines (forEachSymbol .nil b n).1 = List.replicate b.length nilMsg := by
  induction b generalizing n with
  | nil => exact ⟨rfl, rfl, rfl⟩
  | cons s rest ih =>
    have ihr := ih n
    have hcons : forEachSymbol .nil (s :: rest) n =
        ([.sendEchoString s, .cerr nilMsg] ++ (forEachSymbol .nil rest n).1,
          (forEachSymbol .nil rest n).2) := by
      simp [forEachSymbol, sendEchoString, remoteCalls]
    rw [hcons]
    refine ⟨ihr.1, ?_, ?_⟩
    · rw [remoteCalls_append, ihr.2.1]; rfl
    · rw [cerrLines_append, ihr.2.2]; rfl

/-- With a stub whose calls on `pre` succeed and whose call on `s` raises `ex`, the `for`
loop over `pre ++ s :: post` sends `pre` and `s`, writes nothing to `std::cerr`, and is
left by `ex`. -/
theorem forEachSymbol_raise (echoString : Nat → String → Except CorbaExn String)
    (pre post : List String) (s : String) (ex : CorbaExn) (n : Nat)
    (hpre : ∀ i (hi : i < pre.length), ∃ r, echoString (n + i) (pre.get ⟨i, hi⟩) = .ok r)
    (hs : echoString (n + pre.length) s = .error ex) :
    (forEachSymbol (.ref echoString) (pre ++ s :: post) n).2 = some ex ∧
      sent (forEachSymbol (.ref echoString) (pre ++ s :: post) n).1 = pre ++ [s] ∧
      cerrLines (forEachSymbol (.ref echoString) (pre ++ s :: post) n).1 = [] := by
  induction pre generalizing n with
  | nil =>
    have hs0 : echoString n s = .error ex := by simpa using hs
    simp [forEachSymbol, sendEchoString, hs0, sent, cerrLines]
  | cons p ps ih =>
    obtain ⟨r, hr⟩ := hpre 0 (by simp)
    have hr0 : echoString n p = .ok r := by simpa using hr
    have hrec := ih (n + 1)
      (fun i hi => by
        have := hpre (i + 1) (by simp; omega)
        simpa [Nat.add_assoc, Nat.add_comm 1 i] using this)
      (by simpa [Nat.add_assoc, Nat.add_comm 1 ps.length] using hs)
    have hcons : forEachSymbol (.ref echoString) (p :: (ps ++ s :: post)) n =
        ([.sendEchoString p, .echoString p] ++
            (forEachSymbol (.ref echoString) (ps ++ s :: post) (n + 1)).1,
          (forEachSymbol (.ref echoString) (ps ++ s :: post) (n + 1)).2) := by
      simp [forEachSymbol, sendEchoString, hr0, remoteCalls]
    rw [List.cons_append, hcons]
    refine ⟨hrec.1, ?_, ?_⟩
    · rw [sent_append, hrec.2.1]; rfl
    · rw [cerrLines_append, hrec.2.2]; rfl

/-- An iteration that finds both deques empty changes nothing. -/
theorem dispatchIteration_idle (e : Echo_ptr) (st : MainState)
    (hsym : st.symbols = []) (htp : st.toProcess = []) : dispatchIteration e st = st := by
  cases st
  simp only at hsym htp
  subst hsym htp
  rfl

/-- An iteration that finds `symbols` non-empty and `toProcess` empty. -/
theorem dispatchIteration_busy (e : Echo_ptr) (st : MainState)
    (hsym : st.symbols ≠ []) (htp : st.toProcess = []) :
    dispatchIteration e st =
      { symbols := [],
        toProcess :=
          match (forEachSymbol e st.symbols (remoteCalls st.trace).length).2 with
          | none => []
          | some _ => st.symbols,
        trace := st.trace ++ .batch st.symbols ::
          (forEachSymbol e st.symbols (remoteCalls st.trace).length).1,
        thrown := (forEachSymbol e st.symbols (remoteCalls st.trace).length).2 } := by
  obtain ⟨symbols, toProcess, trace, thrown⟩ := st
  simp only at hsym htp
  subst htp
  cases symbols with
  | nil => exact absurd rfl hsym
  | cons x xs =>
    simp only [dispatchIteration, List.isEmpty_cons, Bool.not_false, if_true]
    rcases hres : forEachSymbol e (x :: xs) (remoteCalls trace).length with ⟨evs, _ | ex⟩ <;>
      simp

theorem Handoff_step (e : Echo_ptr) (st : MainState) (appended : List String) (s : Step)
    (h : Handoff st appended) : Handoff (step e st s) (appended ++ enqueuesOf [s]) := by
  obtain ⟨h1, h2, h3⟩ := h
  cases s with
  | enqueue x =>
    refine ⟨h1, h2, ?_⟩
    simp only [step, enqueuesOf, ← h3, List.append_assoc]
  | dispatch =>
    simp only [enqueuesOf, List.append_nil]
    cases hth : st.thrown with
    | some ex =>
      simp only [step, hth]
      exact ⟨fun h => (by rw [hth] at h; cases h), fun h => (by rw [hth] at h; cases h), h3⟩
    | none =>
      simp only [step, hth]
      have htp := h1 hth
      by_cases hsym : st.symbols = []
      · rw [dispatchIteration_idle e st hsym htp]
        exact ⟨h1, h2, h3⟩
      · rw [dispatchIteration_busy e st hsym htp]
        have hev := forEachSymbol_events e st.symbols (remoteCalls st.trace).length
        refine ⟨?_, ?_, ?_⟩
        · intro h
          simp only at h
          simp only [h]
        · intro h
          simp only at h
          simp only [sent_append, sent, batches_append, batches, hev.1, hev.2 h, h2 hth,
            List.flatten_append, List.flatten_cons, List.flatten_nil, List.append_nil]
        · simp only [batches_append, batches, hev.1, List.flatten_append, List.flatten_cons,
            List.flatten_nil, List.append_nil]
          exact h3

theorem Handoff_run (e : Echo_ptr) (steps : List Step) (st : MainState)
    (appended : List String) (h : Handoff st appended) :
    Handoff (run e st steps) (appended ++ enqueuesOf steps) := by
  induction steps generalizing st appended with
  | nil => simpa [run, enqueuesOf] using h
  | cons s rest ih =>
    have := ih (step e st s) (appended ++ enqueuesOf [s]) (Handoff_step e st appended s h)
    rw [List.append_assoc, ← enqueuesOf_append] at this
    exact this

theorem Handoff_initial : Handoff initial [] := ⟨fun _ => rfl, fun _ => rfl, rfl⟩

/-! ## Lemmas on `getObjectReference` -/

/-- The outcome of `getObjectReference` in each case where the enclosing `try` block has
a handler for the failure raised. -/
theorem getObjectReference_handled (orb : ORB) (s : LookupStep) (ex : CorbaExn)
    (h : raisesAt orb s ex) (c : handledAt s ex = true) :
    (ex = .NO_RESOURCES ∧ getObjectReference orb = (noResourcesMsg, .ok none)) ∨
    (ex = .ORB_InvalidName ∧ getObjectReference orb = (invalidNameMsg, .ok none)) ∨
    (ex = .NotFound ∧ getObjectReference orb = (notFoundMsg, .ok none)) ∨
    (ex = .TRANSIENT ∧ getObjectReference orb = (transientMsg, .ok none)) ∨
    (ex = .NO_RESOURCES ∧ getObjectReference orb =
      ("Caught a CORBA::NO_RESOURCES while using the naming service.\n", .ok none)) := by
  cases s with
  | resolve_initial_references =>
    simp only [raisesAt] at h
    cases ex <;> simp [handledAt] at c <;>
      simp [getObjectReference, h, bind, Except.bind]
  | narrow =>
    obtain ⟨obj, h1, h2⟩ := h
    cases ex <;> simp [handledAt] at c <;>
      simp [getObjectReference, h1, h2, bind, Except.bind]
  | resolve =>
    obtain ⟨obj, rootContext, h1, h2, h3⟩ := h
    cases ex <;> simp [handledAt] at c <;>
      simp [getObjectReference, h1, h2, h3, bind, Except.bind, CorbaExn.isSystemException,
        CorbaExn._name]

/-! ## The input classifier -/

/-- C3. In the outer loop every key code in [32,126], or equal to 10 or 13, appends
exactly one string, the one-character string of the code or the line-feed string for 13,
and the thread stays in the outer loop; hence a sequence of such codes appends as many
strings as there are codes, namely their characters in order with carriage-return
replaced by line-feed. -/
theorem normal_mode_classification (codes : List Int)
    (h : ∀ c ∈ codes, (32 ≤ c ∧ c ≤ 126) ∨ c = 10 ∨ c = 13) :
    (∀ c ∈ codes, (ioStep .NORMAL c).1 = .NORMAL ∧
      enqueued (ioStep .NORMAL c).2 =
        [if c = 13 then "\n" else String.singleton (Char.ofNat c.toNat)]) ∧
    (ioRun .NORMAL codes).1 = .NORMAL ∧
    enqueued (ioRun .NORMAL codes).2 =
      codes.map (fun c => if c = 13 then "\n" else String.singleton (Char.ofNat c.toNat)) ∧
    (enqueued (ioRun .NORMAL codes).2).length = codes.length := by
  have one : ∀ c : Int, ((32 ≤ c ∧ c ≤ 126) ∨ c = 10 ∨ c = 13) →
      ioStep .NORMAL c =
        (.NORMAL, [.emplace_back
          (if c = 13 then "\n" else String.singleton (Char.ofNat c.toNat))] ++ lockNotify) := by
    intro c hc
    have hmod : c % 256 = c := Int.emod_eq_of_lt (by omega) (by omega)
    simp [ioStep, hc, static_cast_char, hmod]
  have all : (ioRun .NORMAL codes).1 = .NORMAL ∧
      enqueued (ioRun .NORMAL codes).2 =
        codes.map (fun c => if c = 13 then "\n" else String.singleton (Char.ofNat c.toNat)) := by
    induction codes with
    | nil => exact ⟨rfl, rfl⟩
    | cons c cs ih =>
      have hc := one c (h c (List.mem_cons_self _ _))
      have hcs := ih (fun x hx => h x (List.mem_cons_of_mem _ hx))
      simp only [ioRun, hc, enqueued_append, hcs.1, hcs.2, List.map_cons]
      exact ⟨trivial, by simp [enqueued, lockNotify]⟩
  refine ⟨fun c hc => ?_, all.1, all.2, ?_⟩
  · rw [one c (h c hc)]
    exact ⟨rfl, by simp [enqueued, lockNotify]⟩
  · rw [all.2, List.length_map]

/-- Witness for C3 on the codes of H, carriage-return, line-feed. -/
theorem normal_mode_classification_witness :
    (∀ c ∈ ([72, 13, 10] : List Int), (32 ≤ c ∧ c ≤ 126) ∨ c = 10 ∨ c = 13) ∧
    (ioRun .NORMAL [72, 13, 10]).1 = .NORMAL ∧
    enqueued (ioRun .NORMAL [72, 13, 10]).2 =
      ([72, 13, 10] : List Int).map
        (fun c => if c = 13 then "\n" else String.singleton (Char.ofNat c.toNat)) :=
  ⟨by decide,
    (normal_mode_classification [72, 13, 10] (by decide)).2.1,
    (normal_mode_classification [72, 13, 10] (by decide)).2.2.1⟩

/-- C4. A non-empty burst of key codes outside [32,126] and different from 10 and 13,
read from the outer loop and followed by a line-feed or carriage-return, appends the
diagnostic string and then exactly one resumed string, appends no one-character string,
and leaves the thread back in the outer loop. -/
theorem recovery_ends_on_terminator (burst : List Int) (t : Int) (hne : burst ≠ [])
    (hinv : ∀ c ∈ burst, ¬ ((32 ≤ c ∧ c ≤ 126) ∨ c = 10 ∨ c = 13))
    (ht : t = 10 ∨ t = 13) :
    (ioRun .NORMAL (burst ++ [t])).1 = .NORMAL ∧
    enqueued (ioRun .NORMAL (burst ++ [t])).2 = [unprintableFragment, resumedFragment] ∧
    (enqueued (ioRun .NORMAL (burst ++ [t])).2).count "Session resumed.\n" = 1 ∧
    ∀ f ∈ enqueued (ioRun .NORMAL (burst ++ [t])).2, f.length ≠ 1 := by
  have main : (ioRun .NORMAL (burst ++ [t])).1 = .NORMAL ∧
      enqueued (ioRun .NORMAL (burst ++ [t])).2 = [unprintableFragment, resumedFragment] := by
    cases burst with
    | nil => exact absurd rfl hne
    | cons b bs =>
      have hb := hinv b (List.mem_cons_self _ _)
      have hbs : ∀ k ∈ bs, k ≠ 10 ∧ k ≠ 13 := by
        intro k hk
        have := hinv k (List.mem_cons_of_mem _ hk)
        omega
      obtain ⟨⟨c, hc⟩, henq⟩ := ioRun_recovering_ignored bs 0 hbs
      have hfirst : ioStep .NORMAL b = (.RECOVERING 0,
          [.cerr "\nERROR: Unprintable charachter detected. ", .cerr promptMsg,
            .emplace_back unprintableFragment]) := by
        simp [ioStep, hb]
      have hlast : ioStep (.RECOVERING c) t = (.NORMAL,
          [.cerr "Session resumed.\n", .emplace_back resumedFragment] ++ lockNotify) := by
        simp [ioStep, ht]
      have hrest : ioRun (.RECOVERING 0) (bs ++ [t]) = (.NORMAL,
          (ioRun (.RECOVERING 0) bs).2 ++
            ([.cerr "Session resumed.\n", .emplace_back resumedFragment] ++ lockNotify)) := by
        rw [ioRun_append, hc]
        simp [ioRun, hlast]
      rw [List.cons_append, ioRun_cons, hfirst]
      simp only [hrest, enqueued_append, henq]
      exact ⟨trivial, by simp [enqueued, lockNotify]⟩
  refine ⟨main.1, main.2, ?_, ?_⟩
  · rw [main.2]; decide
  · rw [main.2]; decide

/-- Witness for C4: nine codes 1000 followed by a line-feed. -/
theorem recovery_ends_on_terminator_witness :
    (ioRun .NORMAL (List.replicate 9 1000 ++ [10])).1 = .NORMAL ∧
    enqueued (ioRun .NORMAL (List.replicate 9 1000 ++ [10])).2 =
      [unprintableFragment, resumedFragment] :=
  ⟨(recovery_ends_on_terminator (List.replicate 9 1000) 10 (by decide) (by decide)
      (Or.inl rfl)).1,
    (recovery_ends_on_terminator (List.replicate 9 1000) 10 (by decide) (by decide)
      (Or.inl rfl)).2.1⟩

/-- C5 as stated fails: after nine ignored codes in the recovery loop entered with the
counter at 0, nothing has been written and the counter is 9, not 0. Likewise nine invalid
codes read from the outer loop write the prompt once only, on entering the recovery loop,
and leave the counter at 8. -/
theorem reprompt_after_nine_refuted :
    ioRun (.RECOVERING 0) (List.replicate 9 1000) = (.RECOVERING 9, []) ∧
    ¬ (cerrOutput (ioRun (.RECOVERING 0) (List.replicate 9 1000)).2 = [promptMsg] ∧
        (ioRun (.RECOVERING 0) (List.replicate 9 1000)).1 = .RECOVERING 0) ∧
    (cerrOutput (ioRun .NORMAL (List.replicate 9 1000)).2).count promptMsg = 1 ∧
    (ioRun .NORMAL (List.replicate 9 1000)).1 = .RECOVERING 8 := by
  decide

/-- C5 amended. From the recovery loop with the counter at 0, ten consecutive key codes
other than 10 and 13 write the prompt exactly once, on the tenth code, and leave the
thread in the recovery loop with the counter back at 0; the first nine write nothing and
bring the counter to 9. -/
theorem reprompt_on_tenth_code (ks : List Int) (k : Int) (hlen : ks.length = 9)
    (hks : ∀ x ∈ ks, x ≠ 10 ∧ x ≠ 13) (hk : k ≠ 10 ∧ k ≠ 13) :
    ioRun (.RECOVERING 0) ks = (.RECOVERING 9, []) ∧
    ioRun (.RECOVERING 0) (ks ++ [k]) = (.RECOVERING 0, [.cerr promptMsg]) := by
  have h9 : ioRun (.RECOVERING 0) ks = (.RECOVERING 9, []) := by
    have := ioRun_recovering_count ks 0 hks (le_refl _) (by rw [hlen]; decide)
    rw [this, hlen]
    rfl
  have hnt : ¬ (k = 10 ∨ k = 13) := by omega
  refine ⟨h9, ?_⟩
  rw [ioRun_append, h9]
  simp [ioRun, ioStep, hnt]

/-- Witness for C5 amended: ten codes 1000. -/
theorem reprompt_on_tenth_code_witness :
    ioRun (.RECOVERING 0) (List.replicate 9 1000 ++ [1000]) =
      (.RECOVERING 0, [.cerr promptMsg]) :=
  (reprompt_on_tenth_code (List.replicate 9 1000) 1000 (by decide) (by decide)
    (by decide)).2

/-- C6 as stated fails: on the codes 1000, 1000, 13 the thread appends two strings, not
three, and only one of them is the diagnostic string. -/
theorem scenario_two_refuted :
    enqueued (ioRun .NORMAL [1000, 1000, 13]).2 ≠
      [unprintableFragment, unprintableFragment, resumedFragment] ∧
    (enqueued (ioRun .NORMAL [1000, 1000, 13]).2).length = 2 ∧
    (enqueued (ioRun .NORMAL [1000, 1000, 13]).2).count unprintableFragment = 1 := by
  decide

/-- C6 amended. On the codes 1000, 1000, 13 read from the outer loop the thread appends
exactly two strings, the diagnostic string followed by the resumed string, no
one-character string, and ends back in the outer loop: the second 1000 is consumed by
the recovery loop without appending anything. -/
theorem scenario_two :
    enqueued (ioRun .NORMAL [1000, 1000, 13]).2 = [unprintableFragment, resumedFragment] ∧
    (ioRun .NORMAL [1000, 1000, 13]).1 = .NORMAL ∧
    (∀ f ∈ enqueued (ioRun .NORMAL [1000, 1000, 13]).2, f.length ≠ 1) ∧
    enqueued (ioRun .NORMAL [1000]).2 = [unprintableFragment] ∧
    enqueued (ioRun (.RECOVERING 0) [1000]).2 = [] := by
  decide

/-- C9 at the key code 72: the banner and the character are both appended to `symbols`
while the reader thread does not hold `mutex`; the guard of line 172 is taken only
after the append and covers `cv.notify_one()` alone. -/
theorem appends_outside_lock :
    (ioThread [72]).2 =
      [.cerr "New session initialized.\n", .emplace_back bannerFragment,
        .emplace_back "H", .lock, .notify_one, .unlock] ∧
    unguardedAppends false (ioThread [72]).2 = [bannerFragment, "H"] := by
  decide

/-! ## The pending queue and the dispatch loop -/

/-- C1. For every echo reference and every finite schedule of atomic append steps and
dispatch iterations run from the initial state, the batches handed to the `for` loop, in
order and concatenated, followed by what is still in `symbols`, are exactly the strings
appended, in the order of their appends. -/
theorem queue_handoff_preserves_order (e : Echo_ptr) (steps : List Step) :
    (batches (run e initial steps).trace).flatten ++ (run e initial steps).symbols =
      enqueuesOf steps := by
  have := (Handoff_run e steps initial [] Handoff_initial).2.2
  simpa using this

/-- C2 as stated fails: with a reference whose remote call raises `TRANSIENT`, an
iteration over the pending strings a, b sends a only, writes nothing to `std::cerr`, and
is left by the exception; no later iteration runs, so a string appended afterwards is
never sent. -/
theorem remote_failure_not_survived :
    (dispatchIteration unreachableEcho (pending ["a", "b"])).thrown = some .TRANSIENT ∧
    sent (dispatchIteration unreachableEcho (pending ["a", "b"])).trace = ["a"] ∧
    cerrLines (dispatchIteration unreachableEcho (pending ["a", "b"])).trace = [] ∧
    sent (run unreachableEcho (pending ["a", "b"])
      [.dispatch, .enqueue "c", .dispatch, .dispatch]).trace = ["a"] := by
  decide

/-- C2 amended. When the remote call raises `ex` for a string `s` of the batch, the
calls for the strings before it having returned, the iteration sends those strings and
`s`, sends none of the strings after `s`, writes nothing to `std::cerr`, and the
exception leaves the `while` loop: no further iteration runs. -/
theorem remote_failure_leaves_loop (echoString : Nat → String → Except CorbaExn String)
    (st : MainState) (pre post : List String) (s : String) (ex : CorbaExn)
    (htp : st.toProcess = []) (hsym : st.symbols = pre ++ s :: post)
    (hpre : ∀ i (hi : i < pre.length),
      ∃ r, echoString ((remoteCalls st.trace).length + i) (pre.get ⟨i, hi⟩) = .ok r)
    (hs : echoString ((remoteCalls st.trace).length + pre.length) s = .error ex) :
    (dispatchIteration (.ref echoString) st).thrown = some ex ∧
    sent (dispatchIteration (.ref echoString) st).trace = sent st.trace ++ (pre ++ [s]) ∧
    cerrLines (dispatchIteration (.ref echoString) st).trace = cerrLines st.trace ∧
    ∀ later : List Step, (∀ x ∈ later, x = Step.dispatch) →
      run (.ref echoString) (dispatchIteration (.ref echoString) st) later =
        dispatchIteration (.ref echoString) st := by
  have hne : st.symbols ≠ [] := by rw [hsym]; simp
  have hraise := forEachSymbol_raise echoString pre post s ex (remoteCalls st.trace).length
    hpre hs
  rw [← hsym] at hraise
  have hev := forEachSymbol_events (.ref echoString) st.symbols (remoteCalls st.trace).length
  rw [dispatchIteration_busy _ st hne htp]
  refine ⟨hraise.1, ?_, ?_, ?_⟩
  · simp only [sent_append, sent, hraise.2.1]
  · simp only [cerrLines_append, cerrLines, hraise.2.2, List.append_nil]
  · intro later hlater
    induction later with
    | nil => rfl
    | cons x xs ih =>
      have hx := hlater x (List.mem_cons_self _ _)
      subst hx
      have := ih (fun y hy => hlater y (List.mem_cons_of_mem _ hy))
      simp only [run, List.foldl_cons, step, hraise.1] at this ⊢
      exact this

/-- Witness for C2 amended: the second remote call raises, the batch is a, b, c. -/
theorem remote_failure_leaves_loop_witness :
    (dispatchIteration (.ref flakyEcho) (pending ["a", "b", "c"])).thrown = some .TRANSIENT ∧
    sent (dispatchIteration (.ref flakyEcho) (pending ["a", "b", "c"])).trace =
      sent (pending ["a", "b", "c"]).trace ++ (["a"] ++ ["b"]) :=
  ⟨(remote_failure_leaves_loop flakyEcho (pending ["a", "b", "c"]) ["a"] ["c"] "b" .TRANSIENT
      rfl rfl (fun i hi => by
        have h0 : i = 0 := by simpa using hi
        subst h0
        exact ⟨"a", rfl⟩) rfl).1,
    (remote_failure_leaves_loop flakyEcho (pending ["a", "b", "c"]) ["a"] ["c"] "b" .TRANSIENT
      rfl rfl (fun i hi => by
        have h0 : i = 0 := by simpa using hi
        subst h0
        exact ⟨"a", rfl⟩) rfl).2.1⟩

/-- C7 as stated fails: when the reader thread has read the codes 72, 105, 10 and the
main thread then runs an iteration with a working reference, the strings passed to
`sendEchoString` are the session banner followed by H, i and line-feed, not the three
characters alone. -/
theorem scenario_one_refuted :
    sent (run workingEcho initial (readThenDispatch [72, 105, 10])).trace =
      ["\nNew session initialized.\n", "H", "i", "\n"] ∧
    sent (run workingEcho initial (readThenDispatch [72, 105, 10])).trace ≠
      ["H", "i", "\n"] := by
  decide

/-- C7 amended. For every echo reference and every schedule whose append steps are the
appends of the reader thread on the codes 72, 105, 10, if at the end `symbols` has been
drained and no exception has left the loop, then the strings passed to `sendEchoString`
are, in order, the session banner, H, i and line-feed. -/
theorem scenario_one (e : Echo_ptr) (sched : List Step)
    (hio : enqueuesOf sched = enqueued (ioThread [72, 105, 10]).2)
    (hdrained : (run e initial sched).symbols = [])
    (hloop : (run e initial sched).thrown = none) :
    sent (run e initial sched).trace = ["\nNew session initialized.\n", "H", "i", "\n"] := by
  obtain ⟨_, h2, h3⟩ := Handoff_run e sched initial [] Handoff_initial
  rw [hdrained, List.append_nil, List.nil_append, hio] at h3
  rw [h2 hloop, h3]
  decide

/-- Witness for C7 amended: appends and iterations interleaved. -/
theorem scenario_one_witness :
    sent (run workingEcho initial
      [.enqueue "\nNew session initialized.\n", .dispatch, .enqueue "H", .enqueue "i",
        .dispatch, .dispatch, .enqueue "\n", .dispatch]).trace =
      ["\nNew session initialized.\n", "H", "i", "\n"] :=
  scenario_one workingEcho
    [.enqueue "\nNew session initialized.\n", .dispatch, .enqueue "H", .enqueue "i",
      .dispatch, .dispatch, .enqueue "\n", .dispatch] (by decide) (by decide) (by decide)

/-- C8. With a nil echo reference, one iteration started at the loop head with a non-empty
`symbols` of n strings makes no remote call, writes the nil-reference message exactly n
times, calls `sendEchoString` once per string in order, and leaves `symbols` and
`toProcess` both empty with the loop still running. -/
theorem nil_reference_consumes_batch (st : MainState) (hsym : st.symbols ≠ [])
    (htp : st.toProcess = []) :
    remoteCalls (dispatchIteration .nil st).trace = remoteCalls st.trace ∧
    cerrLines (dispatchIteration .nil st).trace =
      cerrLines st.trace ++ List.replicate st.symbols.length "Echo: The object reference is nil!\n" ∧
    sent (dispatchIteration .nil st).trace = sent st.trace ++ st.symbols ∧
    (dispatchIteration .nil st).symbols = [] ∧
    (dispatchIteration .nil st).toProcess = [] ∧
    (dispatchIteration .nil st).thrown = none := by
  have hnil := forEachSymbol_nil st.symbols (remoteCalls st.trace).length
  have hev := forEachSymbol_events .nil st.symbols (remoteCalls st.trace).length
  rw [dispatchIteration_busy _ st hsym htp]
  refine ⟨?_, ?_, ?_, rfl, ?_, hnil.1⟩
  · simp only [remoteCalls_append, remoteCalls, hnil.2.1, List.append_nil]
  · simp only [cerrLines_append, cerrLines, hnil.2.2]
    rfl
  · simp only [sent_append, sent, hev.2 hnil.1]
  · simp only [hnil.1]

/-- Witness for C8: three pending strings. -/
theorem nil_reference_consumes_batch_witness :
    cerrLines (dispatchIteration .nil (pending ["H", "i", "\n"])).trace =
      cerrLines (pending ["H", "i", "\n"]).trace ++
        List.replicate (pending ["H", "i", "\n"]).symbols.length
          "Echo: The object reference is nil!\n" ∧
    (dispatchIteration .nil (pending ["H", "i", "\n"])).symbols = [] :=
  ⟨(nil_reference_consumes_batch (pending ["H", "i", "\n"]) (by decide) rfl).2.1,
    (nil_reference_consumes_batch (pending ["H", "i", "\n"]) (by decide) rfl).2.2.2.1⟩

/-! ## Endpoint resolution -/

/-- C10 as stated fails: when `resolve_initial_references` raises `TRANSIENT`, the first
`try` block of `getObjectReference` has no handler for it, nothing is written, and the
exception leaves the function instead of a nil reference being returned. -/
theorem lookup_failure_propagates :
    raisesAt unreachableOrb .resolve_initial_references .TRANSIENT ∧
    getObjectReference unreachableOrb = ("", .error .TRANSIENT) :=
  ⟨rfl, rfl⟩

/-- C10 amended. A NO_RESOURCES or InvalidName failure raised while obtaining or
narrowing the root context, and a NotFound, TRANSIENT or NO_RESOURCES failure raised by
`resolve`, make `getObjectReference` write a non-empty message and return the nil
reference without the failure leaving the function; and two such runs whose failures are
of different kinds write different messages. -/
theorem lookup_failures_handled (orb₁ orb₂ : ORB) (s₁ s₂ : LookupStep) (ex₁ ex₂ : CorbaExn)
    (h₁ : raisesAt orb₁ s₁ ex₁) (h₂ : raisesAt orb₂ s₂ ex₂)
    (c₁ : handledAt s₁ ex₁ = true) (c₂ : handledAt s₂ ex₂ = true) :
    (getObjectReference orb₁).2 = .ok none ∧
    (getObjectReference orb₁).1 ≠ "" ∧
    (ex₁ ≠ ex₂ → (getObjectReference orb₁).1 ≠ (getObjectReference orb₂).1) := by
  have r₁ := getObjectReference_handled orb₁ s₁ ex₁ h₁ c₁
  have r₂ := getObjectReference_handled orb₂ s₂ ex₂ h₂ c₂
  refine ⟨?_, ?_, ?_⟩
  · rcases r₁ with ⟨_, e⟩ | ⟨_, e⟩ | ⟨_, e⟩ | ⟨_, e⟩ | ⟨_, e⟩ <;> rw [e]
  · rcases r₁ with ⟨_, e⟩ | ⟨_, e⟩ | ⟨_, e⟩ | ⟨_, e⟩ | ⟨_, e⟩ <;> rw [e] <;> decide
  · intro hne
    rcases r₁ with ⟨k₁, e₁⟩ | ⟨k₁, e₁⟩ | ⟨k₁, e₁⟩ | ⟨k₁, e₁⟩ | ⟨k₁, e₁⟩ <;>
      rcases r₂ with ⟨k₂, e₂⟩ | ⟨k₂, e₂⟩ | ⟨k₂, e₂⟩ | ⟨k₂, e₂⟩ | ⟨k₂, e₂⟩ <;>
      first
        | exact absurd (k₁.trans k₂.symm) hne
        | (rw [e₁, e₂]; decide)

/-- Witness for C10 amended: `resolve` raising TRANSIENT in one run and NotFound in
another. -/
theorem lookup_failures_handled_witness :
    (getObjectReference (orbResolveRaising .TRANSIENT)).2 = .ok none ∧
    (getObjectReference (orbResolveRaising .TRANSIENT)).1 ≠
      (getObjectReference (orbResolveRaising .NotFound)).1 :=
  ⟨(lookup_failures_handled (orbResolveRaising .TRANSIENT) (orbResolveRaising .NotFound)
      .resolve .resolve .TRANSIENT .NotFound ⟨some 0, _, rfl, rfl, rfl⟩
      ⟨some 0, _, rfl, rfl, rfl⟩ rfl rfl).1,
    (lookup_failures_handled (orbResolveRaising .TRANSIENT) (orbResolveRaising .NotFound)
      .resolve .resolve .TRANSIENT .NotFound ⟨some 0, _, rfl, rfl, rfl⟩
      ⟨some 0, _, rfl, rfl, rfl⟩ rfl rfl).2.2 (by decide)⟩

end OmniorbSimpleDemo
